import Mathlib

/-!
Shallow embedding of the time-tracking application (myapp/models.py and
myapp/views.py): user directory, time-entry ledger, the clock-in/clock-out
lifecycle and the HTTP endpoint logic, together with proofs about them.

Timestamps are modelled as natural numbers counting seconds of local time
since an arbitrary epoch midnight; a calendar day is 86400 seconds, so the
date of a timestamp is its quotient by 86400 and its local time-of-day is
the remainder.  The store of `TimeEntry` rows is a list, with `save()` on
an existing row modelled as an in-place update keyed by primary key.
-/

namespace LoginPage

/-- Seconds in one calendar day. -/
def secondsPerDay : Nat := 86400

/-- The calendar day of a timestamp (models `datetime.date()` on a local
timestamp). -/
def dateOf (t : Nat) : Nat := t / secondsPerDay

/-- The local time-of-day of a timestamp in seconds (models
`datetime.time()` on a local timestamp). -/
def timeOfDay (t : Nat) : Nat := t % secondsPerDay

/-- Round a rational to the nearest integer, ties to even — the rounding
of Python's builtin `round`. -/
def roundHalfEven (q : ℚ) : ℤ :=
  if q - ⌊q⌋ < 1/2 then ⌊q⌋
  else if 1/2 < q - ⌊q⌋ then ⌊q⌋ + 1
  else if ⌊q⌋ % 2 = 0 then ⌊q⌋ else ⌊q⌋ + 1

/-- Python's `round(x, 2)`: round to two decimal places, ties to even. -/
def round2 (q : ℚ) : ℚ := (roundHalfEven (q * 100) : ℚ) / 100

/-- `models.CustomUser`: the fields the clock/auth logic reads.  `password`
holds the hashed password, `pin` the nullable 4-character PIN. -/
structure User where
  employee_id : String
  pin : Option String
  password : String
  is_staff : Bool
  is_superuser : Bool
deriving DecidableEq

/-- Model of Django's password hashing: an injective tagging of the
plaintext, standing in for the real hash. -/
def hashPassword (s : String) : String := "pbkdf2$" ++ s

/-- Model of Django's `user.check_password(secret)`: true iff the stored
hash is the hash of the submitted secret. -/
def check_password (u : User) (secret : String) : Bool :=
  u.password == hashPassword secret

/-- `CustomUser.authenticate_by_pin` (models.py): look the user up by
employee_id; staff/superusers are checked against the hashed password,
everyone else against the literal `pin` field; every failure — unknown id,
failed password check, wrong PIN — returns `none`. -/
def authenticate_by_pin (users : List User) (employee_id pin : String) :
    Option User :=
  match users.find? (fun u => u.employee_id == employee_id) with
  | none => none
  | some user =>
    if user.is_staff || user.is_superuser then
      if check_password user pin then some user else none
    else if user.pin == some pin then some user
    else none

/-- `models.TimeEntry`: primary key, owning user (by employee_id),
`time_in` set at creation, nullable `time_out` and `hours_worked`,
`is_late` defaulting to false. -/
structure TimeEntry where
  id : Nat
  user : String
  time_in : Nat
  time_out : Option Nat
  hours_worked : Option ℚ
  is_late : Bool
deriving DecidableEq

/-- `round(delta.total_seconds() / 3600, 2)` for a delta from `time_in` to
`time_out`. -/
def hoursWorkedOf (time_in time_out : Nat) : ℚ :=
  round2 (((time_out : ℚ) - (time_in : ℚ)) / 3600)

/-- The 9:00 AM expected start used by `TimeEntry.clock_out`, in seconds
of the day. -/
def expected_start_close : Nat := 9 * 3600

/-- `TimeEntry.clock_out` (models.py): set `time_out` to now, recompute
`hours_worked` from the delta, and recompute `is_late` as "local
time-of-day of `time_in` strictly after 9:00" (the `if self.time_in and
self.time_out` guard always holds here: `time_in` is non-null by
`auto_now_add` and `time_out` was just assigned). -/
def clock_out (now : Nat) (e : TimeEntry) : TimeEntry :=
  { e with
    time_out := some now
    hours_worked := some (hoursWorkedOf e.time_in now)
    is_late := decide (expected_start_close < timeOfDay e.time_in) }

/-- The `cls.objects.filter(user=user, time_out__isnull=True)` queryset of
`clock_in`, applied entrywise: close the open entries of the user, leave
everything else alone. -/
def closeOpenEntries (now : Nat) (user : String) (store : List TimeEntry) :
    List TimeEntry :=
  store.map (fun e =>
    if e.user == user && e.time_out.isNone then clock_out now e else e)

/-- Next primary key for a created row. -/
def freshId (store : List TimeEntry) : Nat :=
  store.foldr (fun e m => max (e.id + 1) m) 0

/-- `cls.objects.create(user=user)`: a fresh row with `time_in = now`
(auto_now_add), `time_out`/`hours_worked` null and `is_late` at its
default false. -/
def newEntryFor (user : String) (now : Nat) (store : List TimeEntry) :
    TimeEntry :=
  { id := freshId store, user := user, time_in := now,
    time_out := none, hours_worked := none, is_late := false }

/-- `cls.objects.filter(user=user, time_in__date=timezone.now().date()).exists()`:
does the store hold an entry of this user dated today? -/
def hasEntryToday (store : List TimeEntry) (user : String) (now : Nat) :
    Bool :=
  store.any (fun e => e.user == user && dateOf e.time_in == dateOf now)

/-- The 8:00 AM expected start used by `TimeEntry.clock_in`, in seconds of
the day. -/
def expected_start_open : Nat := 8 * 3600

/-- The 5-minute grace period of `TimeEntry.clock_in`, in seconds. -/
def graceSeconds : Nat := 5 * 60

/-- `TimeEntry.clock_in` (models.py): close every open entry of the user,
create a new entry, and then — only if the store (which already holds the
new entry) has no entry of the user dated today — mark the new entry late
iff `time_in` is strictly after today's 8:00 plus the grace period.
Returns the new entry and the updated store. -/
def clock_in (now : Nat) (user : String) (store : List TimeEntry) :
    TimeEntry × List TimeEntry :=
  let closed := closeOpenEntries now user store
  let new_entry := newEntryFor user now store
  if ! hasEntryToday (closed ++ [new_entry]) user now then
    let entry := { new_entry with
      is_late := decide
        (dateOf now * secondsPerDay + expected_start_open + graceSeconds
          < now) }
    (entry, closed ++ [entry])
  else
    (new_entry, closed ++ [new_entry])

/-- Outcome of `login_view` (views.py). -/
inductive LoginResult
  | errorNotFound
  | errorIncorrectPin
  | redirectAdmin
  | redirectUserPage
deriving DecidableEq

/-- `login_view` (views.py): look up by employee_id ("Employee ID not
found" when absent), compare the submitted pin literally with the stored
`pin` field ("Incorrect PIN" on mismatch), then redirect staff/superusers
to the admin surface and everyone else to the user page. -/
def login_view (users : List User) (employee_id pin : String) :
    LoginResult :=
  match users.find? (fun u => u.employee_id == employee_id) with
  | none => .errorNotFound
  | some user =>
    if user.pin != some pin then .errorIncorrectPin
    else if user.is_staff || user.is_superuser then .redirectAdmin
    else .redirectUserPage

/-- The soft JSON errors of the clock endpoints. -/
inductive ApiError
  | employeeIdNotFound
  | incorrectPin
  | noActiveClockIn
deriving DecidableEq

/-- Outcome of a clock endpoint: a soft failure or the affected entry. -/
inductive ApiResult
  | failure (err : ApiError)
  | success (entry : TimeEntry)
deriving DecidableEq

/-- `clock_in_view` (views.py): look up by employee_id, compare `user.pin`
literally with the submitted pin, then delegate to `TimeEntry.clock_in`.
Returns the outcome and the updated store. -/
def clock_in_view (users : List User) (store : List TimeEntry)
    (employee_id pin : String) (now : Nat) : ApiResult × List TimeEntry :=
  match users.find? (fun u => u.employee_id == employee_id) with
  | none => (.failure .employeeIdNotFound, store)
  | some user =>
    if user.pin != some pin then (.failure .incorrectPin, store)
    else
      let r := clock_in now user.employee_id store
      (.success r.1, r.2)

/-- `TimeEntry.objects.filter(user=user, time_out__isnull=True).latest('time_in')`:
the open entry of the user with the greatest `time_in`, or `none`. -/
def latestOpen (store : List TimeEntry) (user : String) :
    Option TimeEntry :=
  (store.filter (fun e => e.user == user && e.time_out.isNone)).foldl
    (fun best e =>
      match best with
      | none => some e
      | some b => if b.time_in < e.time_in then some e else some b)
    none

/-- `entry.save()` on an existing row: replace the row with the matching
primary key. -/
def updateEntry (store : List TimeEntry) (e1 : TimeEntry) :
    List TimeEntry :=
  store.map (fun e => if e.id == e1.id then e1 else e)

/-- `clock_out_view` (views.py): look up by employee_id, compare `user.pin`
literally with the submitted pin, fetch the latest open entry ("No active
clock in found." when there is none, via `TimeEntry.DoesNotExist`), and
close it. Returns the outcome and the updated store. -/
def clock_out_view (users : List User) (store : List TimeEntry)
    (employee_id pin : String) (now : Nat) : ApiResult × List TimeEntry :=
  match users.find? (fun u => u.employee_id == employee_id) with
  | none => (.failure .employeeIdNotFound, store)
  | some user =>
    if user.pin != some pin then (.failure .incorrectPin, store)
    else
      match latestOpen store user.employee_id with
      | none => (.failure .noActiveClockIn, store)
      | some e =>
        let e1 := clock_out now e
        (.success e1, updateEntry store e1)

/-- An entry is an open entry of `user`: it belongs to `user` and its
`time_out` is null. -/
def isOpenFor (user : String) (e : TimeEntry) : Bool :=
  e.user == user && e.time_out.isNone

/-! ## Helper lemmas -/

/-- The store probed by the first-entry-of-the-day check already holds the
entry just created, which is dated today, so the check always finds an
entry. -/
lemma hasEntryToday_after_create (now : Nat) (user : String)
    (l store : List TimeEntry) :
    hasEntryToday (l ++ [newEntryFor user now store]) user now = true := by
  simp [hasEntryToday, newEntryFor, List.any_append]

/-- `clock_in` always takes its else-branch: the lateness branch is dead,
and the result is the fresh default entry appended to the store with the
user's open entries closed. -/
lemma clock_in_eq (now : Nat) (user : String) (store : List TimeEntry) :
    clock_in now user store =
      (newEntryFor user now store,
        closeOpenEntries now user store ++ [newEntryFor user now store]) := by
  simp [clock_in, hasEntryToday_after_create]

/-- After `closeOpenEntries`, no entry of the user is still open. -/
lemma countP_closeOpenEntries (now : Nat) (user : String)
    (store : List TimeEntry) :
    (closeOpenEntries now user store).countP (fun e => isOpenFor user e)
      = 0 := by
  rw [List.countP_eq_zero]
  intro e he
  rw [closeOpenEntries, List.mem_map] at he
  obtain ⟨a, _, rfl⟩ := he
  by_cases h : (a.user == user && a.time_out.isNone) = true
  · simp [h, isOpenFor, clock_out]
  · simp [h, isOpenFor]

/-! ## Concrete rows used by witnesses -/

/-- A row already closed at t = 100. -/
def entryClosedAt100 : TimeEntry :=
  { id := 0, user := "000001", time_in := 0, time_out := some 100,
    hours_worked := some 0, is_late := false }

/-- A row clocked in at 08:30 local time. -/
def entryIn0830 : TimeEntry :=
  { id := 1, user := "000002", time_in := 8 * 3600 + 30 * 60,
    time_out := none, hours_worked := none, is_late := false }

/-- An open row of user 000003 clocked in at t = 100. -/
def entryOpenAt100 : TimeEntry :=
  { id := 2, user := "000003", time_in := 100, time_out := none,
    hours_worked := none, is_late := false }

/-! ## Claims -/

/-- C1: the spec's lateness-at-creation rule (08:00 start plus 5-minute
grace, first entry of the day) is never applied by the code: evaluating
`clock_in` for a user with no prior entries at 08:06 local time — which
the rule says must yield `is_late = true` — leaves `is_late = false`,
because the existence check runs after the new entry was inserted. -/
theorem c1_lateness_rule_not_applied_at_0806 :
    (clock_in (8 * 3600 + 6 * 60) "000001" []).1.is_late = false := by
  rw [clock_in_eq]
  rfl

/-- C2: after a sequential `clock_in`, at most one entry of the user is
open — the user's open entries are all closed before the single new open
entry is created. -/
theorem c2_at_most_one_open_after_clock_in (now : Nat) (user : String)
    (store : List TimeEntry) :
    (clock_in now user store).2.countP (fun e => isOpenFor user e) ≤ 1 := by
  rw [clock_in_eq, List.countP_append, countP_closeOpenEntries]
  simp [List.countP_cons, newEntryFor, isOpenFor]

/-- C3: `clock_out` is not idempotent: on an entry that is already closed
(`time_out = some t`) it overwrites `time_out` with the new current time,
recomputes `hours_worked` from that new time, recomputes `is_late`, and —
whenever the new time differs from the old — actually changes the
record instead of leaving it unchanged or rejecting the call. -/
theorem c3_clock_out_not_idempotent (now t : Nat) (e : TimeEntry)
    (h : e.time_out = some t) :
    (clock_out now e).time_out = some now ∧
    (clock_out now e).hours_worked = some (hoursWorkedOf e.time_in now) ∧
    (clock_out now e).is_late
      = decide (expected_start_close < timeOfDay e.time_in) ∧
    (t ≠ now → clock_out now e ≠ e) := by
  refine ⟨rfl, rfl, rfl, ?_⟩
  intro hne heq
  have h2 : some now = some t := by
    have h3 := congrArg TimeEntry.time_out heq
    simpa [clock_out, h] using h3
  exact hne (Option.some.inj h2).symm

/-- Witness for C3 at the concrete closed row `entryClosedAt100` and
current time 200. -/
theorem c3_witness :
    (clock_out 200 entryClosedAt100).time_out = some 200 ∧
    (clock_out 200 entryClosedAt100).hours_worked
      = some (hoursWorkedOf entryClosedAt100.time_in 200) ∧
    (clock_out 200 entryClosedAt100).is_late
      = decide (expected_start_close < timeOfDay entryClosedAt100.time_in) ∧
    clock_out 200 entryClosedAt100 ≠ entryClosedAt100 := by
  obtain ⟨h1, h2, h3, h4⟩ :=
    c3_clock_out_not_idempotent 200 100 entryClosedAt100 rfl
  exact ⟨h1, h2, h3, h4 (by decide)⟩

/-- C4: `clock_out` marks an entry late exactly when the local time-of-day
of `time_in` is strictly after 9:00, with no grace period; in particular a
`time_in` at 08:30 local ends up not late. -/
theorem c4_close_recomputes_lateness_at_0900 (now : Nat) (e : TimeEntry) :
    ((clock_out now e).is_late = true ↔
      expected_start_close < timeOfDay e.time_in) ∧
    (timeOfDay e.time_in = 8 * 3600 + 30 * 60 →
      (clock_out now e).is_late = false) := by
  constructor
  · simp [clock_out]
  · intro h
    simp [clock_out, h, expected_start_close]

/-- Witness for C4 at the concrete 08:30 row `entryIn0830`. -/
theorem c4_witness : (clock_out (10 * 3600) entryIn0830).is_late = false :=
  (c4_close_recomputes_lateness_at_0900 (10 * 3600) entryIn0830).2 rfl

/-- C5: `clock_out` sets `time_out` to the current time and
`hours_worked` to `round((time_out - time_in) / 3600, 2)`; and every open
entry of the user auto-closed by a subsequent `clock_in` receives exactly
the entry produced by that same `clock_out`. -/
theorem c5_hours_worked_formula (now : Nat) (user : String)
    (store : List TimeEntry) (e : TimeEntry) :
    ((clock_out now e).time_out = some now ∧
      (clock_out now e).hours_worked
        = some (round2 (((now : ℚ) - (e.time_in : ℚ)) / 3600))) ∧
    (e ∈ store → isOpenFor user e = true →
      clock_out now e ∈ (clock_in now user store).2) := by
  refine ⟨⟨rfl, rfl⟩, ?_⟩
  intro hmem hopen
  rw [clock_in_eq]
  apply List.mem_append_left
  rw [closeOpenEntries]
  have hmem2 := List.mem_map_of_mem
    (fun a => if a.user == user && a.time_out.isNone then clock_out now a
      else a) hmem
  simpa [show (e.user == user && e.time_out.isNone) = true from hopen]
    using hmem2

/-- Witness for C5: closing the concrete open row `entryOpenAt100` at
t = 3700, directly and through `clock_in`. -/
theorem c5_witness :
    ((clock_out 3700 entryOpenAt100).time_out = some 3700 ∧
      (clock_out 3700 entryOpenAt100).hours_worked
        = some (round2 (((3700 : ℚ) - (entryOpenAt100.time_in : ℚ)) / 3600))) ∧
    clock_out 3700 entryOpenAt100
      ∈ (clock_in 3700 "000003" [entryOpenAt100]).2 := by
  obtain ⟨h1, h2⟩ :=
    c5_hours_worked_formula 3700 "000003" [entryOpenAt100] entryOpenAt100
  exact ⟨h1, h2 (List.mem_singleton.mpr rfl) rfl⟩

/-- C8: every entry returned by `clock_in` has `is_late = false`: the
first-entry-of-the-day check runs after the new entry is inserted, so it
always finds today's just-created entry and the lateness branch never
executes. -/
theorem c8_clock_in_always_returns_not_late (now : Nat) (user : String)
    (store : List TimeEntry) :
    (clock_in now user store).1.is_late = false := by
  rw [clock_in_eq]
  rfl

/-! ## More helpers: latest open entry, well-formedness -/

/-- When no entry of the user is open, `latestOpen` finds nothing — the
`DoesNotExist` branch of the view. -/
lemma latestOpen_eq_none (store : List TimeEntry) (user : String)
    (h : ∀ e ∈ store, isOpenFor user e = false) :
    latestOpen store user = none := by
  rw [latestOpen]
  have hfil : store.filter (fun e => e.user == user && e.time_out.isNone)
      = [] := by
    rw [List.filter_eq_nil_iff]
    intro a ha
    have ha2 := h a ha
    rw [isOpenFor] at ha2
    simp [ha2]
  rw [hfil]
  rfl

/-- A closed entry is fully populated: a non-null `time_out` comes with a
non-null `hours_worked`, and the hours are non-negative whenever
`time_out` is not earlier than `time_in`. -/
def wellFormed (e : TimeEntry) : Prop :=
  (e.time_out ≠ none → e.hours_worked ≠ none) ∧
  (∀ t, e.time_out = some t → e.time_in ≤ t →
    ∃ q, e.hours_worked = some q ∧ 0 ≤ q)

lemma roundHalfEven_nonneg (q : ℚ) (hq : 0 ≤ q) : 0 ≤ roundHalfEven q := by
  have hf : (0 : ℤ) ≤ ⌊q⌋ := Int.floor_nonneg.mpr hq
  rw [roundHalfEven]
  split
  · exact hf
  · split
    · omega
    · split
      · exact hf
      · omega

lemma round2_nonneg (q : ℚ) (hq : 0 ≤ q) : 0 ≤ round2 q := by
  rw [round2]
  apply div_nonneg _ (by norm_num)
  exact_mod_cast roundHalfEven_nonneg (q * 100) (by positivity)

/-- `clock_out` always produces a well-formed entry. -/
lemma wellFormed_clock_out (now : Nat) (e : TimeEntry) :
    wellFormed (clock_out now e) := by
  constructor
  · intro _
    simp [clock_out]
  · intro t ht hle
    refine ⟨hoursWorkedOf e.time_in now, by simp [clock_out], ?_⟩
    have htn : t = now := by
      simp [clock_out] at ht
      omega
    rw [hoursWorkedOf]
    apply round2_nonneg
    apply div_nonneg _ (by norm_num)
    rw [sub_nonneg]
    have hle2 : e.time_in ≤ now := by
      have : (clock_out now e).time_in = e.time_in := rfl
      omega
    exact_mod_cast hle2

/-- A regular (non-staff) user with PIN 1234. -/
def userAlice : User :=
  { employee_id := "000001", pin := some "1234",
    password := hashPassword "hunter2", is_staff := false,
    is_superuser := false }

/-- A staff user whose PIN field is 1234 but whose password is hunter2. -/
def userStaff : User :=
  { employee_id := "000009", pin := some "1234",
    password := hashPassword "hunter2", is_staff := true,
    is_superuser := false }

/-- C6: with a valid user and correct PIN but no open entry in the store,
`clock_out_view` fails softly with the no-active-session error and
returns the store unchanged. -/
theorem c6_clock_out_without_open_entry (users : List User)
    (store : List TimeEntry) (employee_id pin : String) (u : User)
    (now : Nat)
    (hfind : users.find? (fun v => v.employee_id == employee_id) = some u)
    (hpin : u.pin = some pin)
    (hopen : ∀ e ∈ store, isOpenFor u.employee_id e = false) :
    clock_out_view users store employee_id pin now
      = (.failure .noActiveClockIn, store) := by
  simp [clock_out_view, hfind, hpin, latestOpen_eq_none store u.employee_id hopen]

/-- Witness for C6: user 000001 with correct PIN and a store holding only
an already-closed row. -/
theorem c6_witness :
    clock_out_view [userAlice] [entryClosedAt100] "000001" "1234" 500
      = (.failure .noActiveClockIn, [entryClosedAt100]) := by
  apply c6_clock_out_without_open_entry [userAlice] [entryClosedAt100]
    "000001" "1234" userAlice 500 rfl rfl
  intro e he
  rw [List.mem_singleton] at he
  subst he
  rfl

/-- C7 counterexample: in `authenticate_by_pin` the unknown-id failure and
the wrong-credential failure are the very same value `none` — the code
returns no Unauthorized outcome distinct from NotFound. -/
theorem c7_counterexample :
    authenticate_by_pin [userAlice] "999999" "1234" = none ∧
    authenticate_by_pin [userAlice] "000001" "0000" = none ∧
    authenticate_by_pin [userAlice] "999999" "1234"
      = authenticate_by_pin [userAlice] "000001" "0000" :=
  ⟨rfl, rfl, rfl⟩

/-- C7 (amended): `authenticate_by_pin` looks the user up by employee_id
and returns `none` when absent; for a staff/superuser it verifies the
secret against the stored hashed password, otherwise it compares the
secret literally against the stored PIN; it returns the user on a match
and `none` on a mismatch — the same `none` as the not-found case. -/
theorem c7_authenticate_dispatch (users : List User)
    (employee_id pin : String) (u : User) :
    (users.find? (fun v => v.employee_id == employee_id) = none →
      authenticate_by_pin users employee_id pin = none) ∧
    (users.find? (fun v => v.employee_id == employee_id) = some u →
      authenticate_by_pin users employee_id pin
        = if u.is_staff || u.is_superuser then
            (if check_password u pin then some u else none)
          else if u.pin == some pin then some u else none) := by
  constructor
  · intro h
    simp [authenticate_by_pin, h]
  · intro h
    simp [authenticate_by_pin, h]

/-- Witness for C7 (amended): the regular user 000001 submitting the
correct PIN. -/
theorem c7_witness :
    authenticate_by_pin [userAlice] "000001" "1234"
      = if userAlice.is_staff || userAlice.is_superuser then
          (if check_password userAlice "1234" then some userAlice else none)
        else if userAlice.pin == some "1234" then some userAlice
        else none :=
  (c7_authenticate_dispatch [userAlice] "000001" "1234" userAlice).2 rfl

/-- C9: the three endpoints check the submitted secret literally against
the `pin` field — independently of `is_staff`/`is_superuser` and of the
hashed password — so, once the user is found, each reports Incorrect PIN
exactly when the stored `pin` field differs from the submitted value. -/
theorem c9_views_compare_pin_literally (users : List User)
    (store : List TimeEntry) (employee_id pin : String) (u : User)
    (now : Nat)
    (hfind : users.find? (fun v => v.employee_id == employee_id) = some u) :
    (login_view users employee_id pin = .errorIncorrectPin
      ↔ u.pin ≠ some pin) ∧
    ((clock_in_view users store employee_id pin now).1
      = .failure .incorrectPin ↔ u.pin ≠ some pin) ∧
    ((clock_out_view users store employee_id pin now).1
      = .failure .incorrectPin ↔ u.pin ≠ some pin) := by
  refine ⟨?_, ?_, ?_⟩
  · by_cases hp : u.pin = some pin
    · simp [login_view, hfind, hp]
      split <;> simp
    · simp [login_view, hfind, hp]
  · by_cases hp : u.pin = some pin
    · simp [clock_in_view, hfind, hp]
    · simp [clock_in_view, hfind, hp]
  · by_cases hp : u.pin = some pin
    · rcases hopen : latestOpen store u.employee_id with _ | e <;>
        simp [clock_out_view, hfind, hp, hopen]
    · simp [clock_out_view, hfind, hp]

/-- Witness for C9: the staff user 000009 submitting their password
(hunter2) is rejected with Incorrect PIN by all three endpoints. -/
theorem c9_witness :
    login_view [userStaff] "000009" "hunter2" = .errorIncorrectPin ∧
    (clock_in_view [userStaff] [] "000009" "hunter2" 100).1
      = .failure .incorrectPin ∧
    (clock_out_view [userStaff] [] "000009" "hunter2" 100).1
      = .failure .incorrectPin := by
  obtain ⟨h1, h2, h3⟩ := c9_views_compare_pin_literally [userStaff] []
    "000009" "hunter2" userStaff 100 rfl
  exact ⟨h1.mpr (by decide), h2.mpr (by decide), h3.mpr (by decide)⟩

/-- C10: every entry in the store after `clock_in` is well-formed (closed
rows carry non-null, and — when `time_out` is not earlier than `time_in` —
non-negative hours), the entry `clock_in` creates starts with `time_out`
and `hours_worked` both null, and `clock_out` always yields a well-formed
entry. -/
theorem c10_closed_entries_fully_populated (now : Nat) (user : String)
    (store : List TimeEntry) (hstore : ∀ e ∈ store, wellFormed e) :
    (∀ e ∈ (clock_in now user store).2, wellFormed e) ∧
    (clock_in now user store).1.time_out = none ∧
    (clock_in now user store).1.hours_worked = none ∧
    (∀ e, wellFormed (clock_out now e)) := by
  rw [clock_in_eq]
  refine ⟨?_, rfl, rfl, fun e => wellFormed_clock_out now e⟩
  intro e he
  rw [List.mem_append] at he
  rcases he with he | he
  · rw [closeOpenEntries, List.mem_map] at he
    obtain ⟨a, ha, rfl⟩ := he
    by_cases hc : (a.user == user && a.time_out.isNone) = true
    · rw [if_pos hc]
      exact wellFormed_clock_out now a
    · rw [if_neg hc]
      exact hstore a ha
  · rw [List.mem_singleton] at he
    subst he
    exact ⟨fun hcon => absurd rfl hcon,
      fun t ht => by simp [newEntryFor] at ht⟩

/-- Witness for C10: clocking in user 000003 at t = 7200 over a store
holding one open (well-formed) row. -/
theorem c10_witness :
    (∀ e ∈ (clock_in 7200 "000003" [entryOpenAt100]).2, wellFormed e) ∧
    (clock_in 7200 "000003" [entryOpenAt100]).1.time_out = none ∧
    (clock_in 7200 "000003" [entryOpenAt100]).1.hours_worked = none ∧
    (∀ e, wellFormed (clock_out 7200 e)) := by
  apply c10_closed_entries_fully_populated
  intro e he
  rw [List.mem_singleton] at he
  subst he
  exact ⟨fun hcon => absurd rfl hcon,
    fun t ht => by simp [entryOpenAt100] at ht⟩

end LoginPage
